import Mathlib

/-!
Verification of the productivity-tracker aggregation core (`main.py`).

The shallow embedding below translates the data model and the
read-aggregate-derive pipeline of the repository into Lean:
calendar dates are modelled by their day ordinal (an integer),
timestamps by a day ordinal plus the seconds elapsed within the day,
pandas numeric columns by `Option ℚ` (with `none` playing the role of
NaN for missing or uncoercible values), and operations that can raise
an exception by `Option`-valued functions (`none` models the raised
error).  Rounding follows numpy's round-half-to-even at a decimal
place, computed exactly on rationals.
-/

/-- A Python `datetime`: the calendar day (as an ordinal) plus the
seconds elapsed within that day.  `strftime("%Y-%m-%d")` keeps only
the `day` component; comparisons are lexicographic. -/
structure PyDateTime where
  day : ℤ
  secs : ℕ
deriving DecidableEq

/-- Chronological `≤` on timestamps (pandas `Timestamp` comparison):
lexicographic on (calendar day, time of day). -/
def tsLe (a b : PyDateTime) : Bool :=
  decide (a.day < b.day ∨ (a.day = b.day ∧ a.secs ≤ b.secs))

/-- `datetime - timedelta(days=w)`: shifts the calendar day, keeps the
time of day. -/
def pySubDays (t : PyDateTime) (w : ℤ) : PyDateTime :=
  ⟨t.day - w, t.secs⟩

/-- The calendar day kept by `strftime("%Y-%m-%d")` applied to
`now - timedelta(days=w)` (the lower bound used by the dashboard's
window filter). -/
def dateCutoff (now : PyDateTime) (w : ℤ) : ℤ :=
  (pySubDays now w).day

/-- A raw field value as stored for a numeric column: either a value
`pd.to_numeric` accepts or junk it cannot coerce. -/
inductive RawVal where
  | num : ℚ → RawVal
  | str : String → RawVal
deriving DecidableEq

/-- `pd.to_numeric(_, errors := coerce)` on one value: junk becomes
missing (NaN), not an error. -/
def toNumeric : RawVal → Option ℚ
  | RawVal.num q => some q
  | RawVal.str _ => none

/-- A raw work-log record as read from the store: the date string is
either parseable (carrying its day ordinal) or unparseable junk;
`hours` and `productivity` are the two columns `get_daily_logs`
coerces; `energy` and `mood` are read as-is (missing keys are NaN). -/
structure RawWorkRecord where
  date : ℤ ⊕ String
  hours : RawVal
  productivity : RawVal
  energy : Option ℚ
  mood : Option ℚ
deriving DecidableEq

/-- A normalized work-log entry (one row of the `get_daily_logs`
DataFrame): `none` in a numeric field is a NaN cell. -/
structure WorkLogEntry where
  key : String
  date : ℤ
  hours : Option ℚ
  productivity : Option ℚ
  energy : Option ℚ
  mood : Option ℚ
deriving DecidableEq

/-- A raw habit-log record: a date (parseable or not) and an optional
completion map (a record without the `habits` key yields a NaN cell). -/
structure RawHabitRecord where
  date : ℤ ⊕ String
  habits : Option (List (String × Bool))
deriving DecidableEq

/-- A normalized habit-log entry (one row of the `get_habit_logs`
DataFrame). -/
structure HabitLogEntry where
  key : String
  date : ℤ
  habits : Option (List (String × Bool))
deriving DecidableEq

/-- Date-descending order on work-log rows
(`sort_values(by := date, ascending := False)`). -/
def dateGe (a b : WorkLogEntry) : Prop := b.date ≤ a.date

instance : DecidableRel dateGe := fun a b => Int.decLe b.date a.date

instance : IsTotal WorkLogEntry dateGe := ⟨fun a b => le_total b.date a.date⟩

instance : IsTrans WorkLogEntry dateGe :=
  ⟨fun _ _ _ h1 h2 => le_trans h2 h1⟩

/-- Date-descending order on habit-log rows. -/
def habitDateGe (a b : HabitLogEntry) : Prop := b.date ≤ a.date

instance : DecidableRel habitDateGe := fun a b => Int.decLe b.date a.date

instance : IsTotal HabitLogEntry habitDateGe := ⟨fun a b => le_total b.date a.date⟩

instance : IsTrans HabitLogEntry habitDateGe :=
  ⟨fun _ _ _ h1 h2 => le_trans h2 h1⟩

/-- One raw work record turned into a typed row: the two declared
numeric columns are coerced, a coercion failure becoming missing. -/
def mkWorkEntry (k : String) (d : ℤ) (r : RawWorkRecord) : WorkLogEntry :=
  ⟨k, d, toNumeric r.hours, toNumeric r.productivity, r.energy, r.mood⟩

/-- The column pass of `pd.to_datetime` over the raw rows (default
`errors := raise`): if every date parses the typed rows come back,
otherwise the whole call fails (`none` models the raised error). -/
def rowsToEntries : List (String × RawWorkRecord) → Option (List WorkLogEntry)
  | [] => some []
  | (k, r) :: rest =>
    match r.date with
    | Sum.inl d => (rowsToEntries rest).map (fun es => mkWorkEntry k d r :: es)
    | Sum.inr _ => none

/-- `get_daily_logs`: an absent or empty mapping yields the empty
frame; otherwise dates are parsed (raising on junk), `hours` and
`productivity` are coerced with missing on failure, and the rows are
sorted by date descending. -/
def get_daily_logs (data : List (String × RawWorkRecord)) : Option (List WorkLogEntry) :=
  if data.isEmpty then some []
  else (rowsToEntries data).map (List.insertionSort dateGe)

/-- The typed rows a raw mapping denotes when every date parses
(an unparseable date is read as day 0; the theorems only use this
under the hypothesis that all dates parse). -/
def goodEntries (data : List (String × RawWorkRecord)) : List WorkLogEntry :=
  data.map (fun kr => mkWorkEntry kr.1 (Sum.elim id (fun _ => 0) kr.2.date) kr.2)

/-- Normalizer as the specification describes it: a record whose date
fails to parse is dropped from the output with no error surfaced.
Stated only to compare with `get_daily_logs`, which instead raises. -/
def normalizerSpecDrop (data : List (String × RawWorkRecord)) : List WorkLogEntry :=
  List.insertionSort dateGe
    (data.filterMap (fun kr =>
      match kr.2.date with
      | Sum.inl d => some (mkWorkEntry kr.1 d kr.2)
      | Sum.inr _ => none))

/-- The `pd.to_datetime` pass of `get_habit_logs`. -/
def rowsToHabitEntries : List (String × RawHabitRecord) → Option (List HabitLogEntry)
  | [] => some []
  | (k, r) :: rest =>
    match r.date with
    | Sum.inl d => (rowsToHabitEntries rest).map (fun es => HabitLogEntry.mk k d r.habits :: es)
    | Sum.inr _ => none

/-- `get_habit_logs`: empty mapping yields the empty frame, otherwise
parse dates (raising on junk) and sort by date descending. -/
def get_habit_logs (data : List (String × RawHabitRecord)) : Option (List HabitLogEntry) :=
  if data.isEmpty then some []
  else (rowsToHabitEntries data).map (List.insertionSort habitDateGe)

/-- Mean of a pandas numeric column after NaNs are skipped: `none`
(NaN) when no value is present, otherwise the exact arithmetic mean. -/
def meanQ (l : List ℚ) : Option ℚ :=
  if l.isEmpty then none else some (l.sum / (l.length : ℚ))

/-- Floor of a rational. -/
def ratFloor (q : ℚ) : ℤ := ⌊q⌋

/-- Round half to even to the nearest integer (numpy rounding). -/
def rhe (q : ℚ) : ℤ :=
  let f := ratFloor q
  if q - f < 1 / 2 then f
  else if 1 / 2 < q - f then f + 1
  else if f % 2 = 0 then f else f + 1

/-- `x.round(k)`: numpy round-half-to-even at `k` decimal places. -/
def roundTo (k : ℕ) (q : ℚ) : ℚ :=
  (rhe (q * (10 : ℚ) ^ k) : ℚ) / (10 : ℚ) ^ k

/-- The non-NaN values of the `hours` column. -/
def hoursOf (l : List WorkLogEntry) : List ℚ := l.filterMap (·.hours)

/-- The non-NaN values of the `productivity` column. -/
def prodsOf (l : List WorkLogEntry) : List ℚ := l.filterMap (·.productivity)

/-- The non-NaN values of the `energy` column. -/
def energiesOf (l : List WorkLogEntry) : List ℚ := l.filterMap (·.energy)

/-- The dashboard's trailing-window filter:
`df[df.date >= (now - timedelta(days=w)).strftime("%Y-%m-%d")]`.
The string bound parses back to midnight of the cutoff day and each
row's date is a midnight timestamp. -/
def recentEntries (entries : List WorkLogEntry) (now : PyDateTime) (w : ℤ) : List WorkLogEntry :=
  entries.filter (fun e => tsLe ⟨dateCutoff now w, 0⟩ ⟨e.date, 0⟩)

/-- The windowed summary the dashboard derives from the filtered rows:
row count and the per-column means, hours rounded to 1 decimal place,
productivity and energy to 2 (`none` is a NaN mean). -/
structure WindowStats where
  count : ℕ
  meanHours : Option ℚ
  meanProductivity : Option ℚ
  meanEnergy : Option ℚ
deriving DecidableEq

/-- The dashboard's windowed statistics over a work-log sequence. -/
def windowStats (entries : List WorkLogEntry) (now : PyDateTime) (w : ℤ) : WindowStats :=
  let recent := recentEntries entries now w
  { count := recent.length
    meanHours := (meanQ (hoursOf recent)).map (roundTo 1)
    meanProductivity := (meanQ (prodsOf recent)).map (roundTo 2)
    meanEnergy := (meanQ (energiesOf recent)).map (roundTo 2) }

/-- The dashboard's recent-performance block: rendered only when the
7-day filtered frame is nonempty, otherwise an informational
placeholder is shown (`none`). -/
def dashboardRecent (entries : List WorkLogEntry) (now : PyDateTime) : Option WindowStats :=
  if (recentEntries entries now 7).isEmpty then none else some (windowStats entries now 7)

/-- The dashboard's all-time productivity metric:
`df.productivity.mean().round(2) if not df.empty else 0.0`. -/
def dashboardAvgProd (df : List WorkLogEntry) : Option ℚ :=
  if df.isEmpty then some 0 else (meanQ (prodsOf df)).map (roundTo 2)

/-- `total_done` for one habit row: `sum(x.values())` counts the
`True` values; on a NaN cell (missing map) the call raises (`none`). -/
def dailyCompletion (e : HabitLogEntry) : Option ℕ :=
  e.habits.map (fun m => (m.filter (fun p => p.2)).length)

/-- `dailyCompletion` as the specification words it: a missing
completion map yields 0.  Stated only to compare with the code, which
raises instead. -/
def dailyCompletionSpecZero (e : HabitLogEntry) : ℕ :=
  match e.habits with
  | some m => (m.filter (fun p => p.2)).length
  | none => 0

/-- The `total_done` column over the whole habit frame: raises
(`none`) as soon as any row lacks its completion map. -/
def totalDoneCol (dfH : List HabitLogEntry) : Option (List ℕ) :=
  dfH.mapM dailyCompletion

/-- The suggestion engine's recent habit average:
`df.head(7).total_done.mean().round(1)` (the frame is sorted date
descending, so `head(7)` keeps the 7 most recent rows). -/
def avgHabOf (dfH : List HabitLogEntry) : Option ℚ :=
  (totalDoneCol dfH).bind
    (fun tds => (meanQ ((tds.take 7).map (fun n => (n : ℚ)))).map (roundTo 1))

/-- What the habit-consistency average reports: nothing when the frame
is empty (the page shows a placeholder), otherwise the rounded recent
average; the outer `none` is a raised error (missing map). -/
def consistencyReported (dfH : List HabitLogEntry) : Option (Option ℚ) :=
  if dfH.isEmpty then some none
  else
    match avgHabOf dfH with
    | none => none
    | some v => some (some v)

/-- The suggestion engine's mean productivity: `mean().round(2)`. -/
def avgProdOf (df : List WorkLogEntry) : Option ℚ :=
  (meanQ (prodsOf df)).map (roundTo 2)

/-- The suggestion engine's mean energy: `mean().round(2)`. -/
def avgEnergyOf (df : List WorkLogEntry) : Option ℚ :=
  (meanQ (energiesOf df)).map (roundTo 2)

/-- The suggestion engine's mean hours: `mean().round(2)` (two decimal
places, unlike the dashboard's one). -/
def avgHoursOf (df : List WorkLogEntry) : Option ℚ :=
  (meanQ (hoursOf df)).map (roundTo 2)

/-- The advice strings the suggestion engine can emit, by rule. -/
inductive Advice where
  | prodModerate
  | prodExcellent
  | energyLow
  | habitsLow
  | hoursLow
deriving DecidableEq

/-- The productivity rule pair: moderate advice below 3.8, otherwise
excellent advice from 4.5 up; a NaN mean fires neither branch. -/
def prodAdvice (x : Option ℚ) : List Advice :=
  match x with
  | some v =>
    if v < 19 / 5 then [Advice.prodModerate]
    else if 9 / 2 ≤ v then [Advice.prodExcellent]
    else []
  | none => []

/-- The energy rule: advice below 3.5; a NaN mean does not fire. -/
def energyAdvice (x : Option ℚ) : List Advice :=
  match x with
  | some v => if v < 7 / 2 then [Advice.energyLow] else []
  | none => []

/-- The hours rule: advice below 3.5; a NaN mean does not fire. -/
def hoursAdvice (x : Option ℚ) : List Advice :=
  match x with
  | some v => if v < 7 / 2 then [Advice.hoursLow] else []
  | none => []

/-- The habit block of the suggestion engine: skipped entirely when
the habit frame is empty; otherwise computes the recent average
(raising on a missing map) and fires the rule below 5. -/
def habitBlock (dfH : List HabitLogEntry) : Option (List Advice) :=
  if dfH.isEmpty then some []
  else
    match avgHabOf dfH with
    | none => none
    | some v => some (if v < 5 then [Advice.habitsLow] else [])

/-- Outcome of rendering the suggestions tab: an early informational
return when there are no work logs, a raised error, or the list of
advice strings that fired. -/
inductive SugOutcome where
  | noLogs
  | err
  | advice (l : List Advice)
deriving DecidableEq

/-- The suggestion engine (`graphs_and_insights`, tab 2): early return
on an empty work frame, then the four threshold rules appended in
program order. -/
def suggestions (dfW : List WorkLogEntry) (dfH : List HabitLogEntry) : SugOutcome :=
  if dfW.isEmpty then SugOutcome.noLogs
  else
    match habitBlock dfH with
    | none => SugOutcome.err
    | some hb =>
      SugOutcome.advice
        (prodAdvice (avgProdOf dfW) ++ energyAdvice (avgEnergyOf dfW) ++
          hb ++ hoursAdvice (avgHoursOf dfW))

/-- One row of the peer-comparison table. -/
structure CompRow where
  user : String
  totalLogs : ℕ
  avgHours : Option ℚ
  avgProd : Option ℚ
  habitDays : ℕ
deriving DecidableEq

/-- The comparison row built for one roster member: counts and
all-time means (rounded to 2 decimals), with an explicit `0.0` when
the user's work frame is empty. -/
def compRow (u : String) (dfUser : List WorkLogEntry) (dfHabitsUser : List HabitLogEntry) : CompRow :=
  { user := u
    totalLogs := dfUser.length
    avgHours := if dfUser.isEmpty then some 0 else (meanQ (hoursOf dfUser)).map (roundTo 2)
    avgProd := if dfUser.isEmpty then some 0 else (meanQ (prodsOf dfUser)).map (roundTo 2)
    habitDays := dfHabitsUser.length }

/-- `Series.max()` over a column with NaN cells: NaNs are skipped, an
all-NaN column has a NaN maximum. -/
def seriesMax (l : List (Option ℚ)) : Option ℚ :=
  l.foldl
    (fun acc x =>
      match acc, x with
      | none, y => y
      | some m, none => some m
      | some m, some v => some (max m v))
    none

/-- `highlight_max`: each cell is marked iff it equals the column
maximum (`s == s.max()`), so all tied rows are marked; a NaN cell, or
a NaN maximum, is never marked. -/
def highlightMax (l : List (Option ℚ)) : List Bool :=
  l.map
    (fun x =>
      match x, seriesMax l with
      | some v, some m => decide (v = m)
      | _, _ => false)

/-- A value held at some path of the mock store: a dictionary of
string-keyed fields or a primitive. -/
inductive Val where
  | dict : List (String × Val) → Val
  | prim : ℤ → Val

/-- Lookup in a Python dictionary modelled as an insertion-ordered
association list. -/
def keyLookup (d : List (String × Val)) (k : String) : Option Val :=
  match d with
  | [] => none
  | (k2, v) :: rest => if k2 = k then some v else keyLookup rest k

/-- `d[k] = v` on a Python dictionary: overwrite in place when the key
exists, append otherwise. -/
def setKey (d : List (String × Val)) (k : String) (v : Val) : List (String × Val) :=
  match d with
  | [] => [(k, v)]
  | (k2, w) :: rest => if k2 = k then (k2, v) :: rest else (k2, w) :: setKey rest k v

/-- Python `dict.update(data)`: shallow key merge, one `d[k] = v` per
item of `data` in order. -/
def dictUpdate (d data : List (String × Val)) : List (String × Val) :=
  data.foldl (fun acc p => setKey acc p.1 p.2) d

/-- The mock store's `update`: shallow merge into the stored value
when the path holds a dictionary, otherwise plain replacement of the
stored value by the partial record. -/
def update (db : List (String × Val)) (path : String) (data : List (String × Val)) : List (String × Val) :=
  match keyLookup db path with
  | some (Val.dict d) => setKey db path (Val.dict (dictUpdate d data))
  | _ => setKey db path (Val.dict data)

/-- A well-formed raw work record (used by concrete examples). -/
def c3Good : RawWorkRecord :=
  ⟨Sum.inl 5, RawVal.num 2, RawVal.num 4, some 3, some 3⟩

/-- A raw work record whose date string does not parse. -/
def c3Junk : RawWorkRecord :=
  ⟨Sum.inr "12-bad-2025", RawVal.num 1, RawVal.num 1, some 1, some 1⟩

/-- A raw work record with an uncoercible `hours` value but a good date. -/
def c3JunkHours : RawWorkRecord :=
  ⟨Sum.inl 7, RawVal.str "junk", RawVal.num 5, some 2, some 2⟩

/-- A raw mapping holding one good record and one bad-date record. -/
def c3CexData : List (String × RawWorkRecord) := [("k1", c3Good), ("k2", c3Junk)]

/-- A raw mapping whose dates all parse (one record has junk hours). -/
def c3GoodData : List (String × RawWorkRecord) := [("k1", c3Good), ("k2", c3JunkHours)]

/-- A work row whose productivity cell is NaN. -/
def c4Missing : WorkLogEntry := ⟨"m1", 0, some 2, none, some 3, some 3⟩

/-- A work row with productivity present. -/
def c4Present : WorkLogEntry := ⟨"m2", 0, some 2, some 4, some 3, some 3⟩

/-- Three work rows with hours 3, 4, 4 (mean 11/3). -/
def c5Df : List WorkLogEntry :=
  [⟨"a1", 0, some 3, some 3, some 3, some 3⟩,
   ⟨"a2", 0, some 4, some 3, some 3, some 3⟩,
   ⟨"a3", 0, some 4, some 3, some 3, some 3⟩]

/-- Habit row with completion map A ↦ true, B ↦ false, C ↦ true. -/
def habit1 : HabitLogEntry := ⟨"h1", 0, some [("A", true), ("B", false), ("C", true)]⟩

/-- Habit row with completion map A ↦ true, B ↦ true, C ↦ true. -/
def habit2 : HabitLogEntry := ⟨"h2", 1, some [("A", true), ("B", true), ("C", true)]⟩

/-- One work row with mean hours 5, productivity 3, energy 4. -/
def c8Work : List WorkLogEntry := [⟨"w1", 0, some 5, some 3, some 4, some 3⟩]

/-- One habit row with 6 of 8 habits completed. -/
def c8Habits : List HabitLogEntry :=
  [⟨"g1", 0, some [("a", true), ("b", true), ("c", true), ("d", true),
      ("e", true), ("f", true), ("g", false), ("h", false)]⟩]

/-- A store holding one goal record (a dictionary) at a known path. -/
def c10Db : List (String × Val) :=
  [("goals/manav/g1", Val.dict [("status", Val.prim 0), ("week", Val.prim 40)])]

/-- A partial record touching only the `status` field. -/
def c10Data : List (String × Val) := [("status", Val.prim 1)]

theorem keyLookup_setKey_self (d : List (String × Val)) (k : String) (v : Val) :
    keyLookup (setKey d k v) k = some v := by
  induction d with
  | nil => simp [setKey, keyLookup]
  | cons p rest ih =>
    obtain ⟨k2, w⟩ := p
    by_cases h : k2 = k
    · simp [setKey, keyLookup, h]
    · simp [setKey, keyLookup, h, ih]

theorem keyLookup_setKey_ne (d : List (String × Val)) (k1 k : String) (v : Val) (h : k1 ≠ k) :
    keyLookup (setKey d k1 v) k = keyLookup d k := by
  induction d with
  | nil => simp [setKey, keyLookup, h]
  | cons p rest ih =>
    obtain ⟨k2, w⟩ := p
    by_cases h2 : k2 = k1
    · subst h2
      simp [setKey, keyLookup, h]
    · simp [setKey, keyLookup, h2, ih]

theorem keyLookup_dictUpdate_not_mem (data d : List (String × Val)) (k : String)
    (h : ∀ p ∈ data, p.1 ≠ k) :
    keyLookup (dictUpdate d data) k = keyLookup d k := by
  induction data generalizing d with
  | nil => rfl
  | cons p rest ih =>
    obtain ⟨k1, v1⟩ := p
    have hk1 : k1 ≠ k := h (k1, v1) (List.mem_cons_self _ _)
    have step : dictUpdate d ((k1, v1) :: rest) = dictUpdate (setKey d k1 v1) rest := rfl
    rw [step, ih (setKey d k1 v1) (fun p hp => h p (List.mem_cons_of_mem _ hp)),
      keyLookup_setKey_ne d k1 k v1 hk1]

/-- C1: with exactly the two entries (date D, hours 3, productivity 2)
and (date D−1, hours 5, productivity 5), a 2-day window and now on day
D (any time of day), the windowed statistics report count 2, mean
hours 4.0 and mean productivity 3.5 — flat arithmetic means over the
entries passing the date filter. -/
theorem c1_window_scenario (D : ℤ) (s : ℕ) :
    windowStats [⟨"k1", D, some 3, some 2, none, none⟩, ⟨"k2", D - 1, some 5, some 5, none, none⟩]
        ⟨D, s⟩ 2 =
      { count := 2, meanHours := some 4, meanProductivity := some (7 / 2), meanEnergy := none } := by
  have h1 : tsLe ⟨dateCutoff ⟨D, s⟩ 2, 0⟩ ⟨D, 0⟩ = true := by
    simp only [tsLe, dateCutoff, pySubDays, decide_eq_true_eq]
    omega
  have h2 : tsLe ⟨dateCutoff ⟨D, s⟩ 2, 0⟩ ⟨D - 1, 0⟩ = true := by
    simp only [tsLe, dateCutoff, pySubDays, decide_eq_true_eq]
    omega
  have hh : ⌊(40 : ℚ)⌋ = 40 := by
    rw [Int.floor_eq_iff]
    norm_num
  have hp : ⌊(350 : ℚ)⌋ = 350 := by
    rw [Int.floor_eq_iff]
    norm_num
  simp only [windowStats, recentEntries, List.filter_cons, h1, h2, if_true, List.filter_nil,
    hoursOf, prodsOf, energiesOf, List.filterMap_cons, List.filterMap_nil, meanQ]
  norm_num [roundTo, rhe, ratFloor, hh, hp]

/-- C2: for every entry sequence, reference time and window length,
the windowed count equals the number of entries whose calendar date is
at least now − windowDays days; the bound is inclusive and the time of
day of `now` is irrelevant. -/
theorem c2_window_count_boundary (entries : List WorkLogEntry) (now : PyDateTime) (w : ℤ) :
    (windowStats entries now w).count = entries.countP (fun e => decide (now.day - w ≤ e.date)) := by
  rw [List.countP_eq_length_filter]
  show (recentEntries entries now w).length = _
  refine congrArg List.length (List.filter_congr ?_)
  intro e _
  simp only [tsLe, dateCutoff, pySubDays, decide_eq_decide]
  omega

/-- C10: the store's `update` shallow-merges the partial record into a
stored dictionary — keys of the stored value absent from the partial
record are left unchanged — and for an absent path or a non-dictionary
stored value it replaces the stored value with the record. -/
theorem c10_update_merge :
    (∀ (db : List (String × Val)) (path : String) (data d : List (String × Val)),
        keyLookup db path = some (Val.dict d) →
          keyLookup (update db path data) path = some (Val.dict (dictUpdate d data)) ∧
            ∀ k, (∀ p ∈ data, p.1 ≠ k) → keyLookup (dictUpdate d data) k = keyLookup d k)
      ∧ ∀ (db : List (String × Val)) (path : String) (data : List (String × Val)),
          (keyLookup db path = none ∨ ∃ z, keyLookup db path = some (Val.prim z)) →
            keyLookup (update db path data) path = some (Val.dict data) := by
  constructor
  · intro db path data d h
    refine ⟨?_, fun k hk => keyLookup_dictUpdate_not_mem data d k hk⟩
    rw [update, h, keyLookup_setKey_self]
  · intro db path data h
    rcases h with h | ⟨z, h⟩ <;> rw [update, h, keyLookup_setKey_self]

/-- Witness for C10: updating the stored goal record with a new status
merges the status field, leaves the week field unchanged, and an
update at an absent path stores the record itself. -/
theorem c10_update_merge_witness :
    (keyLookup (update c10Db "goals/manav/g1" c10Data) "goals/manav/g1" =
        some (Val.dict (dictUpdate [("status", Val.prim 0), ("week", Val.prim 40)] c10Data)) ∧
      keyLookup (dictUpdate [("status", Val.prim 0), ("week", Val.prim 40)] c10Data) "week" =
        keyLookup [("status", Val.prim 0), ("week", Val.prim 40)] "week") ∧
      keyLookup (update [] "daily/manav" c10Data) "daily/manav" = some (Val.dict c10Data) := by
  have h := c10_update_merge
  refine ⟨?_, h.2 [] "daily/manav" c10Data (Or.inl rfl)⟩
  have h1 := h.1 c10Db "goals/manav/g1" c10Data [("status", Val.prim 0), ("week", Val.prim 40)] rfl
  exact ⟨h1.1, h1.2 "week" (by decide)⟩

theorem rowsToEntries_all_good (data : List (String × RawWorkRecord))
    (h : ∀ kr ∈ data, kr.2.date.isLeft = true) :
    rowsToEntries data = some (goodEntries data) := by
  induction data with
  | nil => rfl
  | cons kr rest ih =>
    obtain ⟨k, r⟩ := kr
    have hd := h (k, r) (List.mem_cons_self _ _)
    cases hr : r.date with
    | inl d =>
      rw [goodEntries, List.map_cons]
      simp only [rowsToEntries, hr, ih (fun p hp => h p (List.mem_cons_of_mem _ hp)),
        Option.map_some']
      rw [← goodEntries]
      simp [hr]
    | inr s =>
      rw [hr] at hd
      simp at hd

theorem rowsToEntries_has_bad (data : List (String × RawWorkRecord))
    (kr : String × RawWorkRecord) (hmem : kr ∈ data) (hbad : kr.2.date.isLeft = false) :
    rowsToEntries data = none := by
  induction data with
  | nil => cases hmem
  | cons p rest ih =>
    obtain ⟨k, r⟩ := p
    rcases List.mem_cons.mp hmem with heq | hmem2
    · subst heq
      cases hr : r.date with
      | inl d =>
        rw [hr] at hbad
        simp at hbad
      | inr s => simp [rowsToEntries, hr]
    · cases hr : r.date with
      | inl d => simp [rowsToEntries, hr, ih hmem2]
      | inr s => simp [rowsToEntries, hr]

/-- Counterexample for C3: on a mapping holding one good record and one
record with an unparseable date, `get_daily_logs` raises (models as
`none`), while the specified behaviour would drop the bad record and
return the remaining entry. -/
theorem c3_unparseable_date_raises_cex :
    get_daily_logs c3CexData = none ∧
      normalizerSpecDrop c3CexData = [mkWorkEntry "k1" 5 c3Good] ∧
      get_daily_logs c3CexData ≠ some (normalizerSpecDrop c3CexData) := by
  refine ⟨rfl, rfl, by decide⟩

/-- C3 (amended): the normalizer returns the typed entries sorted by
date descending, a numeric value failing coercion becomes missing with
the record otherwise retained, but a record whose date fails to parse
makes the whole call raise (`none`) instead of being dropped. -/
theorem c3_normalizer_amended (data : List (String × RawWorkRecord)) :
    ((∀ kr ∈ data, kr.2.date.isLeft = true) →
        get_daily_logs data = some (List.insertionSort dateGe (goodEntries data)) ∧
          List.Sorted dateGe (List.insertionSort dateGe (goodEntries data)) ∧
          (List.insertionSort dateGe (goodEntries data)).Perm (goodEntries data))
      ∧ ((∃ kr ∈ data, kr.2.date.isLeft = false) → get_daily_logs data = none) := by
  constructor
  · intro h
    refine ⟨?_, List.sorted_insertionSort dateGe _, List.perm_insertionSort dateGe _⟩
    by_cases hd : data = []
    · subst hd
      rfl
    · have hne : data.isEmpty = false := by simpa [List.isEmpty_iff] using hd
      rw [get_daily_logs, hne]
      rw [rowsToEntries_all_good data h]
      rfl
  · rintro ⟨kr, hmem, hbad⟩
    have hne : data.isEmpty = false := by
      cases data with
      | nil => cases hmem
      | cons p rest => rfl
    rw [get_daily_logs, hne, rowsToEntries_has_bad data kr hmem hbad]
    rfl

/-- Witness for C3 (amended): a mapping whose dates all parse (one
record carrying uncoercible hours) normalizes to the sorted typed
rows, and the bad-date mapping raises. -/
theorem c3_normalizer_amended_witness :
    get_daily_logs c3GoodData = some (List.insertionSort dateGe (goodEntries c3GoodData)) ∧
      get_daily_logs c3CexData = none := by
  refine ⟨((c3_normalizer_amended c3GoodData).1 ?_).1, (c3_normalizer_amended c3CexData).2 ?_⟩
  · decide
  · exact ⟨("k2", c3Junk), by decide, rfl⟩

/-- Counterexample for C6: a habit row with a missing completion map
makes the daily-completion computation raise (models as `none`), while
the claim says it yields 0. -/
theorem c6_missing_map_cex :
    dailyCompletion ⟨"h0", 0, none⟩ = none ∧
      dailyCompletionSpecZero ⟨"h0", 0, none⟩ = 0 ∧
      dailyCompletion ⟨"h0", 0, none⟩ ≠ some (dailyCompletionSpecZero ⟨"h0", 0, none⟩) := by
  refine ⟨rfl, rfl, by decide⟩

/-- C6 (amended): for a present completion map the daily completion is
the number of true values (a missing map raises rather than yielding
0); the two scenario maps give daily completions 2 and 3, and their
averaged consistency is 2.5. -/
theorem c6_daily_completion_amended :
    (∀ (k : String) (d : ℤ) (m : List (String × Bool)),
        dailyCompletion ⟨k, d, some m⟩ = some (m.filter (fun p => p.2)).length) ∧
      (∀ (k : String) (d : ℤ), dailyCompletion ⟨k, d, none⟩ = none) ∧
      dailyCompletion habit1 = some 2 ∧
      dailyCompletion habit2 = some 3 ∧
      avgHabOf [habit1, habit2] = some (5 / 2) := by
  refine ⟨fun k d m => rfl, fun k d => rfl, rfl, rfl, ?_⟩
  have h1 : totalDoneCol [habit1, habit2] = some [2, 3] := rfl
  have hf : ⌊(25 : ℚ)⌋ = 25 := by
    rw [Int.floor_eq_iff]
    norm_num
  rw [avgHabOf, h1]
  simp only [Option.some_bind, List.take, List.map_cons, List.map_nil, meanQ]
  norm_num [roundTo, rhe, ratFloor, hf]

/-- Counterexample for C4: one entry whose productivity cell is
missing — the all-time productivity metric and the suggestion engine's
mean report NaN (`none`), not the claimed 0. -/
theorem c4_all_missing_mean_nan_cex :
    dashboardAvgProd [c4Missing] = none ∧
      dashboardAvgProd [c4Missing] ≠ some 0 ∧
      avgProdOf [c4Missing] = none := by
  refine ⟨rfl, by simp only [ne_eq]; decide, rfl⟩

/-- C4 (amended): each mean is computed only over the entries where
the field is present — prepending an entry with a missing cell to a
nonempty frame leaves the reported mean unchanged — and the 0 default
applies exactly to the empty frame; a nonempty frame with no present
value reports NaN (`none`), not 0, though no exception is raised. -/
theorem c4_mean_present_only_amended :
    dashboardAvgProd [] = some 0 ∧
      (∀ (e : WorkLogEntry) (df : List WorkLogEntry),
          e.productivity = none → df ≠ [] →
            dashboardAvgProd (e :: df) = dashboardAvgProd df) ∧
      (∀ df : List WorkLogEntry, df ≠ [] → prodsOf df = [] → dashboardAvgProd df = none) ∧
      (∀ (df : List WorkLogEntry) (v : ℚ), meanQ (prodsOf df) = some v →
          dashboardAvgProd df = some (roundTo 2 v)) := by
  refine ⟨rfl, ?_, ?_, ?_⟩
  · intro e df he hdf
    have h2 : df.isEmpty = false := by simpa [List.isEmpty_iff] using hdf
    rw [dashboardAvgProd, dashboardAvgProd, h2]
    simp [prodsOf, List.filterMap_cons, he]
  · intro df hdf hp
    have h2 : df.isEmpty = false := by simpa [List.isEmpty_iff] using hdf
    rw [dashboardAvgProd, h2, hp]
    rfl
  · intro df v hv
    have h2 : df.isEmpty = false := by
      cases df with
      | nil => simp [prodsOf, meanQ] at hv
      | cons a l => rfl
    rw [dashboardAvgProd, h2, hv]
    rfl

/-- Witness for C4 (amended): an entry with a missing productivity
cell does not move the reported all-time mean, and the empty frame
reports the 0 default. -/
theorem c4_mean_present_only_witness :
    dashboardAvgProd [c4Missing, c4Present] = dashboardAvgProd [c4Present] ∧
      dashboardAvgProd [] = some 0 := by
  have h := c4_mean_present_only_amended
  exact ⟨h.2.1 c4Missing [c4Present] rfl (by simp), h.1⟩

/-- Counterexample for C5: over hours 3, 4, 4 (mean 11/3) the peer
comparison row and the suggestion engine report 3.67 — hours rounded
to two decimal places — while the dashboard reports 3.7; the claimed
one-decimal rule does not hold at every reporting site. -/
theorem c5_hours_round_two_cex :
    (compRow "a" c5Df []).avgHours = some (367 / 100) ∧
      avgHoursOf c5Df = some (367 / 100) ∧
      (windowStats c5Df ⟨0, 0⟩ 7).meanHours = some (37 / 10) ∧
      (367 / 100 : ℚ) ≠ 37 / 10 := by
  have hmean : meanQ (hoursOf c5Df) = some (11 / 3) := by
    have h0 : hoursOf c5Df = [3, 4, 4] := rfl
    rw [meanQ, h0]
    norm_num
  have hr2 : roundTo 2 (11 / 3) = 367 / 100 := by
    have hf : ⌊(11 : ℚ) / 3 * 10 ^ 2⌋ = 366 := by
      rw [Int.floor_eq_iff]
      norm_num
    rw [roundTo, rhe, ratFloor]
    norm_num [hf]
  have hr1 : roundTo 1 (11 / 3) = 37 / 10 := by
    have hf : ⌊(11 : ℚ) / 3 * 10 ^ 1⌋ = 36 := by
      rw [Int.floor_eq_iff]
      norm_num
    rw [roundTo, rhe, ratFloor]
    norm_num [hf]
  have h1 : (compRow "a" c5Df []).avgHours = (meanQ (hoursOf c5Df)).map (roundTo 2) := rfl
  have h2 : avgHoursOf c5Df = (meanQ (hoursOf c5Df)).map (roundTo 2) := rfl
  have h3 : (windowStats c5Df ⟨0, 0⟩ 7).meanHours = (meanQ (hoursOf c5Df)).map (roundTo 1) := rfl
  rw [h1, h2, h3, hmean]
  refine ⟨by rw [Option.map_some', hr2], by rw [Option.map_some', hr2],
    by rw [Option.map_some', hr1], by norm_num⟩

/-- C5 (amended): every reported mean is rounded exactly once at the
reporting boundary, over the exact full-precision mean of the present
values; productivity and energy are rounded to 2 decimal places
everywhere, while hours are rounded to 1 decimal place in the
dashboard window summary but to 2 decimal places in the suggestion
engine and the peer-comparison rows. -/
theorem c5_rounding_amended :
    (∀ (entries : List WorkLogEntry) (now : PyDateTime) (w : ℤ) (v : ℚ),
        meanQ (hoursOf (recentEntries entries now w)) = some v →
          (windowStats entries now w).meanHours = some (roundTo 1 v)) ∧
      (∀ (entries : List WorkLogEntry) (now : PyDateTime) (w : ℤ) (v : ℚ),
          meanQ (prodsOf (recentEntries entries now w)) = some v →
            (windowStats entries now w).meanProductivity = some (roundTo 2 v)) ∧
      (∀ (entries : List WorkLogEntry) (now : PyDateTime) (w : ℤ) (v : ℚ),
          meanQ (energiesOf (recentEntries entries now w)) = some v →
            (windowStats entries now w).meanEnergy = some (roundTo 2 v)) ∧
      (∀ (df : List WorkLogEntry) (v : ℚ), meanQ (hoursOf df) = some v →
          avgHoursOf df = some (roundTo 2 v)) ∧
      (∀ (df : List WorkLogEntry) (v : ℚ), meanQ (prodsOf df) = some v →
          avgProdOf df = some (roundTo 2 v)) ∧
      (∀ (df : List WorkLogEntry) (v : ℚ), meanQ (energiesOf df) = some v →
          avgEnergyOf df = some (roundTo 2 v)) ∧
      (∀ (u : String) (df : List WorkLogEntry) (dh : List HabitLogEntry) (v : ℚ),
          df ≠ [] → meanQ (hoursOf df) = some v →
            (compRow u df dh).avgHours = some (roundTo 2 v)) ∧
      (∀ (u : String) (df : List WorkLogEntry) (dh : List HabitLogEntry) (v : ℚ),
          df ≠ [] → meanQ (prodsOf df) = some v →
            (compRow u df dh).avgProd = some (roundTo 2 v)) := by
  refine ⟨?_, ?_, ?_, ?_, ?_, ?_, ?_, ?_⟩
  · intro entries now w v hv
    show (meanQ (hoursOf (recentEntries entries now w))).map (roundTo 1) = _
    rw [hv, Option.map_some']
  · intro entries now w v hv
    show (meanQ (prodsOf (recentEntries entries now w))).map (roundTo 2) = _
    rw [hv, Option.map_some']
  · intro entries now w v hv
    show (meanQ (energiesOf (recentEntries entries now w))).map (roundTo 2) = _
    rw [hv, Option.map_some']
  · intro df v hv
    rw [avgHoursOf, hv, Option.map_some']
  · intro df v hv
    rw [avgProdOf, hv, Option.map_some']
  · intro df v hv
    rw [avgEnergyOf, hv, Option.map_some']
  · intro u df dh v hdf hv
    have h2 : df.isEmpty = false := by simpa [List.isEmpty_iff] using hdf
    show (if df.isEmpty then some 0 else (meanQ (hoursOf df)).map (roundTo 2)) = _
    rw [h2, hv]
    rfl
  · intro u df dh v hdf hv
    have h2 : df.isEmpty = false := by simpa [List.isEmpty_iff] using hdf
    show (if df.isEmpty then some 0 else (meanQ (prodsOf df)).map (roundTo 2)) = _
    rw [h2, hv]
    rfl

/-- Witness for C5 (amended): over hours 3, 4, 4 the dashboard window
reports the 1-decimal rounding and the peer row the 2-decimal rounding
of the same exact mean 11/3. -/
theorem c5_rounding_witness :
    (windowStats c5Df ⟨0, 0⟩ 7).meanHours = some (roundTo 1 (11 / 3)) ∧
      (compRow "a" c5Df []).avgHours = some (roundTo 2 (11 / 3)) := by
  have h := c5_rounding_amended
  have hmean : meanQ (hoursOf c5Df) = some (11 / 3) := by
    have h0 : hoursOf c5Df = [3, 4, 4] := rfl
    rw [meanQ, h0]
    norm_num
  have hrec : recentEntries c5Df ⟨0, 0⟩ 7 = c5Df := rfl
  refine ⟨h.1 c5Df ⟨0, 0⟩ 7 (11 / 3) ?_, h.2.2.2.2.2.2.1 "a" c5Df [] (11 / 3) (by simp [c5Df]) hmean⟩
  rw [hrec, hmean]

/-- C7: in the peer comparison each cell is marked exactly when it
holds the column maximum — so all tied rows are marked — and a user
with empty logs still yields a total row of zeros without error (and,
holding the maximum, would be marked like any other row). -/
theorem c7_peer_marking :
    (∀ (l : List (Option ℚ)) (i : ℕ) (v : ℚ), l[i]? = some (some v) →
        ((highlightMax l)[i]? = some true ↔ seriesMax l = some v)) ∧
      ∀ (u : String) (dh : List HabitLogEntry),
        compRow u [] dh =
          { user := u, totalLogs := 0, avgHours := some 0, avgProd := some 0,
            habitDays := dh.length } := by
  constructor
  · intro l i v h
    rw [highlightMax, List.getElem?_map, h, Option.map_some']
    cases hm : seriesMax l with
    | none => simp
    | some m => simp [eq_comm]
  · intro u dh
    rfl

/-- Witness for C7: three users with mean hours 5, 5 and 4 — both tied
top rows are marked and the third is not. -/
theorem c7_peer_marking_witness :
    (((highlightMax [some 5, some 5, some 4])[0]? = some true) ↔
        seriesMax [some 5, some 5, some 4] = some 5) ∧
      (((highlightMax [some 5, some 5, some 4])[1]? = some true) ↔
        seriesMax [some 5, some 5, some 4] = some 5) ∧
      compRow "idle" [] [] =
        { user := "idle", totalLogs := 0, avgHours := some 0, avgProd := some 0,
          habitDays := 0 } := by
  have h := c7_peer_marking
  exact ⟨h.1 [some 5, some 5, some 4] 0 5 rfl, h.1 [some 5, some 5, some 4] 1 5 rfl,
    h.2 "idle" []⟩

theorem mem_prodAdvice_cases {a : Advice} {x : Option ℚ} (h : a ∈ prodAdvice x) :
    a = Advice.prodModerate ∨ a = Advice.prodExcellent := by
  cases x with
  | none => simp [prodAdvice] at h
  | some v =>
    rw [prodAdvice] at h
    split_ifs at h <;> simp at h <;> simp [h]

theorem mem_energyAdvice_cases {a : Advice} {x : Option ℚ} (h : a ∈ energyAdvice x) :
    a = Advice.energyLow := by
  cases x with
  | none => simp [energyAdvice] at h
  | some v =>
    rw [energyAdvice] at h
    split_ifs at h <;> simp at h
    exact h

theorem mem_hoursAdvice_cases {a : Advice} {x : Option ℚ} (h : a ∈ hoursAdvice x) :
    a = Advice.hoursLow := by
  cases x with
  | none => simp [hoursAdvice] at h
  | some v =>
    rw [hoursAdvice] at h
    split_ifs at h <;> simp at h
    exact h

theorem mem_habitBlock_cases {a : Advice} {dfH : List HabitLogEntry} {hb : List Advice}
    (h : habitBlock dfH = some hb) (ha : a ∈ hb) : a = Advice.habitsLow := by
  rw [habitBlock] at h
  split_ifs at h with h1
  · cases h
    simp at ha
  · cases h2 : avgHabOf dfH with
    | none =>
      rw [h2] at h
      cases h
    | some v =>
      rw [h2] at h
      cases h
      split_ifs at ha <;> simp at ha
      exact ha

theorem mem_prodAdvice_moderate (x : Option ℚ) :
    Advice.prodModerate ∈ prodAdvice x ↔ ∃ v, x = some v ∧ v < 19 / 5 := by
  cases x with
  | none => simp [prodAdvice]
  | some v =>
    rw [prodAdvice]
    split_ifs with h1 h2
    · simp [h1]
    · simp [h1]
    · simp [h1]

theorem mem_energyAdvice_iff (x : Option ℚ) :
    Advice.energyLow ∈ energyAdvice x ↔ ∃ v, x = some v ∧ v < 7 / 2 := by
  cases x with
  | none => simp [energyAdvice]
  | some v =>
    rw [energyAdvice]
    split_ifs with h1 <;> simp [h1]

theorem mem_hoursAdvice_iff (x : Option ℚ) :
    Advice.hoursLow ∈ hoursAdvice x ↔ ∃ v, x = some v ∧ v < 7 / 2 := by
  cases x with
  | none => simp [hoursAdvice]
  | some v =>
    rw [hoursAdvice]
    split_ifs with h1 <;> simp [h1]

theorem mem_habitBlock_iff {dfH : List HabitLogEntry} {hb : List Advice}
    (h : habitBlock dfH = some hb) :
    (Advice.habitsLow ∈ hb ↔ dfH ≠ [] ∧ ∃ v, avgHabOf dfH = some v ∧ v < 5) := by
  rw [habitBlock] at h
  split_ifs at h with h1
  · cases h
    simp [List.isEmpty_iff.mp h1]
  · have hne : dfH ≠ [] := by
      intro hnil
      rw [hnil] at h1
      exact h1 rfl
    cases h2 : avgHabOf dfH with
    | none =>
      rw [h2] at h
      cases h
    | some v =>
      rw [h2] at h
      cases h
      split_ifs with h3 <;> simp [hne, h3]

/-- C8: each threshold rule of the suggestion engine fires
independently of the others — membership of each advice in the output
is equivalent to its own predicate alone — and on mean productivity 3,
mean energy 4, habit average 6 and mean hours 5 exactly the
productivity advice fires. -/
theorem c8_suggestion_independence :
    (∀ (dfW : List WorkLogEntry) (dfH : List HabitLogEntry) (l : List Advice),
        suggestions dfW dfH = SugOutcome.advice l →
          (Advice.prodModerate ∈ l ↔ ∃ v, avgProdOf dfW = some v ∧ v < 19 / 5) ∧
            (Advice.energyLow ∈ l ↔ ∃ v, avgEnergyOf dfW = some v ∧ v < 7 / 2) ∧
            (Advice.habitsLow ∈ l ↔ dfH ≠ [] ∧ ∃ v, avgHabOf dfH = some v ∧ v < 5) ∧
            (Advice.hoursLow ∈ l ↔ ∃ v, avgHoursOf dfW = some v ∧ v < 7 / 2)) ∧
      suggestions c8Work c8Habits = SugOutcome.advice [Advice.prodModerate] := by
  constructor
  · intro dfW dfH l h
    rw [suggestions] at h
    by_cases hW : dfW.isEmpty
    · rw [if_pos hW] at h
      exact SugOutcome.noConfusion h
    · rw [if_neg hW] at h
      cases hB : habitBlock dfH with
      | none =>
        rw [hB] at h
        exact SugOutcome.noConfusion h
      | some hb =>
        rw [hB] at h
        cases h
        simp only [List.mem_append]
        refine ⟨⟨?_, ?_⟩, ⟨?_, ?_⟩, ⟨?_, ?_⟩, ⟨?_, ?_⟩⟩
        · rintro (((hm | hm) | hm) | hm)
          · exact (mem_prodAdvice_moderate _).mp hm
          · exact Advice.noConfusion (mem_energyAdvice_cases hm)
          · exact Advice.noConfusion (mem_habitBlock_cases hB hm)
          · exact Advice.noConfusion (mem_hoursAdvice_cases hm)
        · intro hv
          exact Or.inl (Or.inl (Or.inl ((mem_prodAdvice_moderate _).mpr hv)))
        · rintro (((hm | hm) | hm) | hm)
          · rcases mem_prodAdvice_cases hm with h1 | h1 <;> exact Advice.noConfusion h1
          · exact (mem_energyAdvice_iff _).mp hm
          · exact Advice.noConfusion (mem_habitBlock_cases hB hm)
          · exact Advice.noConfusion (mem_hoursAdvice_cases hm)
        · intro hv
          exact Or.inl (Or.inl (Or.inr ((mem_energyAdvice_iff _).mpr hv)))
        · rintro (((hm | hm) | hm) | hm)
          · rcases mem_prodAdvice_cases hm with h1 | h1 <;> exact Advice.noConfusion h1
          · exact Advice.noConfusion (mem_energyAdvice_cases hm)
          · exact (mem_habitBlock_iff hB).mp hm
          · exact Advice.noConfusion (mem_hoursAdvice_cases hm)
        · intro hv
          exact Or.inl (Or.inr ((mem_habitBlock_iff hB).mpr hv))
        · rintro (((hm | hm) | hm) | hm)
          · rcases mem_prodAdvice_cases hm with h1 | h1 <;> exact Advice.noConfusion h1
          · exact Advice.noConfusion (mem_energyAdvice_cases hm)
          · exact Advice.noConfusion (mem_habitBlock_cases hB hm)
          · exact (mem_hoursAdvice_iff _).mp hm
        · intro hv
          exact Or.inr ((mem_hoursAdvice_iff _).mpr hv)
  · have hP : avgProdOf c8Work = some 3 := by
      have hf : ⌊(300 : ℚ)⌋ = 300 := by
        rw [Int.floor_eq_iff]
        norm_num
      have h0 : prodsOf c8Work = [3] := rfl
      rw [avgProdOf, h0, meanQ]
      norm_num [roundTo, rhe, ratFloor, hf]
    have hE : avgEnergyOf c8Work = some 4 := by
      have hf : ⌊(400 : ℚ)⌋ = 400 := by
        rw [Int.floor_eq_iff]
        norm_num
      have h0 : energiesOf c8Work = [4] := rfl
      rw [avgEnergyOf, h0, meanQ]
      norm_num [roundTo, rhe, ratFloor, hf]
    have hH : avgHoursOf c8Work = some 5 := by
      have hf : ⌊(500 : ℚ)⌋ = 500 := by
        rw [Int.floor_eq_iff]
        norm_num
      have h0 : hoursOf c8Work = [5] := rfl
      rw [avgHoursOf, h0, meanQ]
      norm_num [roundTo, rhe, ratFloor, hf]
    have hHab : avgHabOf c8Habits = some 6 := by
      have hf : ⌊(60 : ℚ)⌋ = 60 := by
        rw [Int.floor_eq_iff]
        norm_num
      have h0 : totalDoneCol c8Habits = some [6] := rfl
      rw [avgHabOf, h0]
      simp only [Option.some_bind, List.take, List.map_cons, List.map_nil, meanQ]
      norm_num [roundTo, rhe, ratFloor, hf]
    have hbne : c8Habits.isEmpty = false := rfl
    have hB : habitBlock c8Habits = some [] := by
      rw [habitBlock, hbne, hHab]
      norm_num
    have hWne : c8Work.isEmpty = false := rfl
    rw [suggestions, hWne, hB]
    simp only [Bool.false_eq_true, if_false]
    rw [hP, hE, hH, prodAdvice, energyAdvice, hoursAdvice]
    norm_num

/-- Witness for C8: the independence equivalences instantiated at the
scenario input, each hypothesis discharged concretely. -/
theorem c8_suggestion_witness :
    (Advice.prodModerate ∈ [Advice.prodModerate] ↔
        ∃ v, avgProdOf c8Work = some v ∧ v < 19 / 5) ∧
      (Advice.energyLow ∈ [Advice.prodModerate] ↔
        ∃ v, avgEnergyOf c8Work = some v ∧ v < 7 / 2) ∧
      (Advice.habitsLow ∈ [Advice.prodModerate] ↔
        c8Habits ≠ [] ∧ ∃ v, avgHabOf c8Habits = some v ∧ v < 5) ∧
      (Advice.hoursLow ∈ [Advice.prodModerate] ↔
        ∃ v, avgHoursOf c8Work = some v ∧ v < 7 / 2) := by
  exact c8_suggestion_independence.1 c8Work c8Habits [Advice.prodModerate]
    c8_suggestion_independence.2

/-- Counterexample for C9: on empty input the 7-day window summary and
the habit-consistency average are not rendered at all (placeholder,
modelled `none`), rather than reporting zero means as claimed. -/
theorem c9_empty_not_zero_reported_cex :
    dashboardRecent [] ⟨0, 0⟩ = none ∧
      dashboardRecent [] ⟨0, 0⟩ ≠ some ⟨0, some 0, some 0, some 0⟩ ∧
      consistencyReported [] = some none ∧
      consistencyReported [] ≠ some (some 0) := by
  refine ⟨rfl, by decide, rfl, by decide⟩

/-- C9 (amended): an absent or empty collection normalizes to the
empty sequence (never null, no error); the aggregates carrying an
explicit empty guard — the peer-comparison row and the all-time
productivity metric — report zeros; the windowed summary and the
habit-consistency average are skipped (placeholder) rather than
reported as 0; and the suggestion engine returns early without error. -/
theorem c9_empty_pipeline_amended :
    get_daily_logs [] = some [] ∧
      get_habit_logs [] = some [] ∧
      (∀ (u : String) (dh : List HabitLogEntry),
          compRow u [] dh =
            { user := u, totalLogs := 0, avgHours := some 0, avgProd := some 0,
              habitDays := dh.length }) ∧
      dashboardAvgProd [] = some 0 ∧
      (∀ now : PyDateTime, dashboardRecent [] now = none) ∧
      consistencyReported [] = some none ∧
      (∀ dfH : List HabitLogEntry, suggestions [] dfH = SugOutcome.noLogs) := by
  exact ⟨rfl, rfl, fun u dh => rfl, rfl, fun now => rfl, rfl, fun dfH => rfl⟩
